import Mathlib

/-!
# Verification of the lab-assistant frontend against its specification

Shallow embedding of the TypeScript sources under `src/frontend/src`
(`lib/api-service.ts`, `pages/Papers.tsx`, `pages/PaperDetail.tsx`,
`pages/ProjectDetail.tsx`, `pages/ExperimentDetail.tsx`,
`pages/JoinProject.tsx`, `types`), together with spec-modelled definitions
for the RAG backend components (Retriever, query entry point) whose code is
not part of the frontend sources.

JavaScript platform builtins that the sources call (`JSON.parse`,
`String.prototype.trim`, `String.prototype.toLowerCase`,
`String.prototype.includes`, `encodeURIComponent`) are modelled explicitly
below, following ECMAScript semantics.
-/

namespace LabAssistant

/-! ## Models of JavaScript string builtins -/

/-- Model of the characters `String.prototype.trim` removes
(space, tab, LF, CR, VT, FF, NBSP, BOM). -/
def jsWhitespaceChar (c : Char) : Bool :=
  c == ' ' || c == '\t' || c == '\n' || c == '\r' ||
  c == Char.ofNat 11 || c == Char.ofNat 12 ||
  c == Char.ofNat 160 || c == Char.ofNat 65279

/-- Model of `String.prototype.trim`. -/
def jsTrim (s : String) : String :=
  ⟨((s.data.dropWhile jsWhitespaceChar).reverse.dropWhile jsWhitespaceChar).reverse⟩

/-- Model of `String.prototype.toLowerCase` (per-character lowering). -/
def jsToLower (s : String) : String :=
  ⟨s.data.map Char.toLower⟩

/-- Test whether `needle` is an initial segment of `hay`. -/
def listStartsWith : List Char → List Char → Bool
  | _, [] => true
  | [], _ :: _ => false
  | c :: cs, d :: ds => c == d && listStartsWith cs ds

/-- Test whether `needle` occurs contiguously in `hay`. -/
def listHasSubstr (needle : List Char) : List Char → Bool
  | [] => listStartsWith [] needle
  | c :: t => listStartsWith (c :: t) needle || listHasSubstr needle t

/-- Model of `String.prototype.includes`. -/
def jsIncludes (s sub : String) : Bool :=
  listHasSubstr sub.data s.data

/-! ## JSON values and a model of `JSON.parse` -/

/-- JSON values as produced by `JSON.parse`.  A number is kept syntactically
as a signed decimal mantissa and a power-of-ten exponent (its value is
`mantissa * 10 ^ exp10`) rather than as an IEEE double; no claim below
depends on float rounding. -/
inductive Json where
  | null : Json
  | bool : Bool → Json
  | num : Int → Int → Json
  | str : String → Json
  | arr : List Json → Json
  | obj : List (String × Json) → Json

/-- Property lookup on a parsed JSON object: with duplicate keys,
`JSON.parse` keeps the last occurrence, so lookup returns the last match. -/
def lookupLast (key : String) : List (String × Json) → Option Json
  | [] => none
  | (k, v) :: rest =>
    match lookupLast key rest with
    | some r => some r
    | none => if k == key then some v else none

/-- Model of JavaScript truthiness on JSON values
(`null`, `false`, `0`, `""` are falsy; arrays and objects are truthy). -/
def jsTruthy : Json → Bool
  | .null => false
  | .bool b => b
  | .num m _ => m != 0
  | .str s => s != ""
  | .arr _ => true
  | .obj _ => true

mutual

/-- Model of JavaScript `String(x)` coercion on JSON values (the number case
uses the rational's representation; JS float formatting is approximated). -/
def jsToString : Json → String
  | .null => "null"
  | .bool b => if b then "true" else "false"
  | .num m e => toString m ++ (if e == 0 then "" else "e" ++ toString e)
  | .str s => s
  | .arr xs => jsToStringList xs
  | .obj _ => "[object Object]"

/-- Model of `Array.prototype.toString`: elements joined with commas, `null`
rendered empty. -/
def jsToStringList : List Json → String
  | [] => ""
  | [Json.null] => ""
  | [x] => jsToString x
  | Json.null :: xs => "," ++ jsToStringList xs
  | x :: xs => jsToString x ++ "," ++ jsToStringList xs

end

/-- Value of a hexadecimal digit character. -/
def hexDigitVal (c : Char) : Option Nat :=
  let n := c.toNat
  if 48 ≤ n ∧ n ≤ 57 then some (n - 48)
  else if 97 ≤ n ∧ n ≤ 102 then some (n - 87)
  else if 65 ≤ n ∧ n ≤ 70 then some (n - 55)
  else none

/-- JSON insignificant whitespace (space, tab, LF, CR). -/
def jsonWs (c : Char) : Bool :=
  c == ' ' || c == '\t' || c == '\n' || c == '\r'

/-- Skip JSON whitespace. -/
def skipJsonWs (cs : List Char) : List Char :=
  cs.dropWhile jsonWs

/-- Parse the body of a JSON string literal (after the opening quote),
returning its characters and the input after the closing quote.  `\uXXXX`
escapes combine surrogate pairs; a lone surrogate becomes U+FFFD (Lean
`Char` cannot hold lone surrogates; no claim depends on them). -/
def parseJsonStringBody : Nat → List Char → Option (List Char × List Char)
  | 0, _ => none
  | _, [] => none
  | _ + 1, '"' :: rest => some ([], rest)
  | fuel + 1, '\\' :: 'n' :: rest =>
    (parseJsonStringBody fuel rest).map (fun p => ('\n' :: p.1, p.2))
  | fuel + 1, '\\' :: 't' :: rest =>
    (parseJsonStringBody fuel rest).map (fun p => ('\t' :: p.1, p.2))
  | fuel + 1, '\\' :: 'r' :: rest =>
    (parseJsonStringBody fuel rest).map (fun p => ('\r' :: p.1, p.2))
  | fuel + 1, '\\' :: 'b' :: rest =>
    (parseJsonStringBody fuel rest).map (fun p => (Char.ofNat 8 :: p.1, p.2))
  | fuel + 1, '\\' :: 'f' :: rest =>
    (parseJsonStringBody fuel rest).map (fun p => (Char.ofNat 12 :: p.1, p.2))
  | fuel + 1, '\\' :: '"' :: rest =>
    (parseJsonStringBody fuel rest).map (fun p => ('"' :: p.1, p.2))
  | fuel + 1, '\\' :: '\\' :: rest =>
    (parseJsonStringBody fuel rest).map (fun p => ('\\' :: p.1, p.2))
  | fuel + 1, '\\' :: '/' :: rest =>
    (parseJsonStringBody fuel rest).map (fun p => ('/' :: p.1, p.2))
  | fuel + 1, '\\' :: 'u' :: a :: b :: c :: d :: '\\' :: 'u' :: a2 :: b2 :: c2 :: d2 :: rest2 =>
    match hexDigitVal a, hexDigitVal b, hexDigitVal c, hexDigitVal d with
    | some ha, some hb, some hc, some hd =>
      let n := ha * 4096 + hb * 256 + hc * 16 + hd
      if 0xD800 ≤ n && n ≤ 0xDBFF then
        match hexDigitVal a2, hexDigitVal b2, hexDigitVal c2, hexDigitVal d2 with
        | some ha2, some hb2, some hc2, some hd2 =>
          let m := ha2 * 4096 + hb2 * 256 + hc2 * 16 + hd2
          if 0xDC00 ≤ m && m ≤ 0xDFFF then
            (parseJsonStringBody fuel rest2).map
              (fun p => (Char.ofNat (0x10000 + (n - 0xD800) * 0x400 + (m - 0xDC00)) :: p.1, p.2))
          else
            (parseJsonStringBody fuel ('\\' :: 'u' :: a2 :: b2 :: c2 :: d2 :: rest2)).map
              (fun p => (Char.ofNat 0xFFFD :: p.1, p.2))
        | _, _, _, _ => none
      else
        let out := if 0xDC00 ≤ n && n ≤ 0xDFFF then Char.ofNat 0xFFFD else Char.ofNat n
        (parseJsonStringBody fuel ('\\' :: 'u' :: a2 :: b2 :: c2 :: d2 :: rest2)).map
          (fun p => (out :: p.1, p.2))
    | _, _, _, _ => none
  | fuel + 1, '\\' :: 'u' :: a :: b :: c :: d :: rest =>
    match hexDigitVal a, hexDigitVal b, hexDigitVal c, hexDigitVal d with
    | some ha, some hb, some hc, some hd =>
      let n := ha * 4096 + hb * 256 + hc * 16 + hd
      let out :=
        if 0xD800 ≤ n && n ≤ 0xDFFF then Char.ofNat 0xFFFD else Char.ofNat n
      (parseJsonStringBody fuel rest).map (fun p => (out :: p.1, p.2))
    | _, _, _, _ => none
  | _ + 1, '\\' :: _ => none
  | fuel + 1, c :: rest =>
    if c.toNat < 32 then none
    else (parseJsonStringBody fuel rest).map (fun p => (c :: p.1, p.2))

/-- Numeric value of a digit list (most significant first). -/
def digitsVal (ds : List Char) : Nat :=
  ds.foldl (fun a c => a * 10 + (c.toNat - 48)) 0

/-- Parse the digits of an exponent part, with its sign. -/
def parseExpDigits (sgn : Int) (r : List Char) : Int × List Char × Bool :=
  match r.span Char.isDigit with
  | ([], _) => (0, r, false)
  | (es, r2) => (sgn * (digitsVal es : Int), r2, true)

/-- Parse a JSON number (strict grammar: optional minus, no leading zeros,
optional fraction and exponent), returning its mantissa and decimal
exponent. -/
def parseJsonNumber (cs : List Char) : Option ((Int × Int) × List Char) :=
  let negated := cs.headD ' ' == '-'
  let cs1 := if negated then cs.tail else cs
  match cs1.span Char.isDigit with
  | ([], _) => none
  | (whole, afterWhole) =>
    if whole.length > 1 ∧ whole.headD '0' = '0' then none
    else
      let (fracs, fracOk, afterFrac) :=
        match afterWhole with
        | '.' :: more =>
          match more.span Char.isDigit with
          | ([], _) => (([] : List Char), false, more)
          | (fracs, afterFracs) => (fracs, true, afterFracs)
        | _ => (([] : List Char), true, afterWhole)
      if fracOk = false then none
      else
        let (expVal, afterExp, expOk) :=
          match afterFrac with
          | 'e' :: '+' :: more => parseExpDigits 1 more
          | 'e' :: '-' :: more => parseExpDigits (-1) more
          | 'e' :: more => parseExpDigits 1 more
          | 'E' :: '+' :: more => parseExpDigits 1 more
          | 'E' :: '-' :: more => parseExpDigits (-1) more
          | 'E' :: more => parseExpDigits 1 more
          | _ => ((0 : Int), afterFrac, true)
        if expOk = false then none
        else
          let magnitude : Int := (digitsVal whole * 10 ^ fracs.length + digitsVal fracs : Nat)
          some (((if negated then -magnitude else magnitude),
                 expVal - (fracs.length : Int)), afterExp)

mutual

/-- Model of `JSON.parse` value parsing (fuel-indexed; fuel bounds the
nesting/element recursion and is instantiated large enough at top level). -/
def parseJsonValue : Nat → List Char → Option (Json × List Char)
  | 0, _ => none
  | fuel + 1, cs =>
    match skipJsonWs cs with
    | 'n' :: more =>
      if more.take 3 = ['u', 'l', 'l'] then some (.null, more.drop 3) else none
    | 't' :: more =>
      if more.take 3 = ['r', 'u', 'e'] then some (.bool true, more.drop 3) else none
    | 'f' :: more =>
      if more.take 4 = ['a', 'l', 's', 'e'] then some (.bool false, more.drop 4) else none
    | '"' :: r =>
      (parseJsonStringBody (r.length + 1) r).map (fun p => (.str ⟨p.1⟩, p.2))
    | '[' :: r =>
      match skipJsonWs r with
      | ']' :: r2 => some (.arr [], r2)
      | r2 => parseJsonArrItems fuel [] r2
    | '\x7b' :: r =>
      match skipJsonWs r with
      | '\x7d' :: r2 => some (.obj [], r2)
      | r2 => parseJsonObjItems fuel [] r2
    | cs2 => (parseJsonNumber cs2).map (fun p => (.num p.1.1 p.1.2, p.2))

/-- Parse the remaining items of a non-empty JSON array. -/
def parseJsonArrItems : Nat → List Json → List Char → Option (Json × List Char)
  | 0, _, _ => none
  | fuel + 1, acc, cs =>
    match parseJsonValue fuel cs with
    | none => none
    | some (v, rest) =>
      match skipJsonWs rest with
      | ',' :: r2 => parseJsonArrItems fuel (acc ++ [v]) r2
      | ']' :: r2 => some (.arr (acc ++ [v]), r2)
      | _ => none

/-- Parse the remaining members of a non-empty JSON object. -/
def parseJsonObjItems : Nat → List (String × Json) → List Char → Option (Json × List Char)
  | 0, _, _ => none
  | fuel + 1, acc, cs =>
    match skipJsonWs cs with
    | '"' :: r =>
      match parseJsonStringBody (r.length + 1) r with
      | none => none
      | some (key, rest) =>
        match skipJsonWs rest with
        | ':' :: r2 =>
          match parseJsonValue fuel r2 with
          | none => none
          | some (v, rest2) =>
            match skipJsonWs rest2 with
            | ',' :: r3 => parseJsonObjItems fuel (acc ++ [(⟨key⟩, v)]) r3
            | '\x7d' :: r3 => some (.obj (acc ++ [(⟨key⟩, v)]), r3)
            | _ => none
        | _ => none
    | _ => none

end

/-- Model of `JSON.parse`: `some` on the values JavaScript accepts,
`none` where `JSON.parse` throws a `SyntaxError`. -/
def jsonParse (s : String) : Option Json :=
  match parseJsonValue (s.length + 2) s.data with
  | some (j, rest) => if (skipJsonWs rest).isEmpty then some j else none
  | none => none

/-! ## C5: paper processing status and the Papers page status renderer -/

/-- The client's processing-status type: the union
`'pending' | 'processing' | 'completed' | 'failed'` on
`Paper.processing_status` in `types`. -/
inductive ProcessingStatus where
  | pending : ProcessingStatus
  | processing : ProcessingStatus
  | completed : ProcessingStatus
  | failed : ProcessingStatus
deriving DecidableEq

/-- The wire string of a `ProcessingStatus` value. -/
def ProcessingStatus.toWire : ProcessingStatus → String
  | .pending => "pending"
  | .processing => "processing"
  | .completed => "completed"
  | .failed => "failed"

/-- A rendered status badge: its colour variant and label text
(icons follow the label one-to-one and are omitted). -/
structure BadgeView where
  variant : String
  label : String
deriving DecidableEq

/-- Embedding of `getStatusBadge` from `pages/Papers.tsx`: switch on the status string
with cases `completed`, `processing`, `failed`, and a default Pending badge. -/
def papersGetStatusBadge (status : String) : BadgeView :=
  if status == "completed" then ⟨"success", "Indexed"⟩
  else if status == "processing" then ⟨"info", "Processing"⟩
  else if status == "failed" then ⟨"error", "Failed"⟩
  else ⟨"default", "Pending"⟩

/-- C5: every document's processing status is one of exactly
`pending`, `processing`, `completed`, `failed`; the Papers page status
renderer maps `completed`, `processing` and `failed` each to a distinct
badge, and every other status string (including `pending`) to the Pending
badge. -/
theorem claim_C5 :
    (∀ st : ProcessingStatus,
      st = .pending ∨ st = .processing ∨ st = .completed ∨ st = .failed) ∧
    (papersGetStatusBadge "completed" ≠ papersGetStatusBadge "processing" ∧
     papersGetStatusBadge "completed" ≠ papersGetStatusBadge "failed" ∧
     papersGetStatusBadge "processing" ≠ papersGetStatusBadge "failed") ∧
    (∀ status : String,
      status ≠ "completed" → status ≠ "processing" → status ≠ "failed" →
      papersGetStatusBadge status = ⟨"default", "Pending"⟩) := by
  refine ⟨?_, by decide, ?_⟩
  · intro st
    cases st
    · exact Or.inl rfl
    · exact Or.inr (Or.inl rfl)
    · exact Or.inr (Or.inr (Or.inl rfl))
    · exact Or.inr (Or.inr (Or.inr rfl))
  · intro status h1 h2 h3
    unfold papersGetStatusBadge
    rw [if_neg (by simpa using h1), if_neg (by simpa using h2), if_neg (by simpa using h3)]

/-- Witness for C5 at the concrete status string `"pending"`, which is none
of the three special cases and therefore renders the Pending badge. -/
theorem claim_C5_witness :
    papersGetStatusBadge "pending" = ⟨"default", "Pending"⟩ :=
  claim_C5.2.2 "pending" (by decide) (by decide) (by decide)

/-! ## C4: the `request` helper's error path and the Q&A error display -/

/-- The failure branch of `request` in `lib/api-service.ts` (lines 52-63):
start from `API Error: ${response.statusText}`; if the body parses as JSON
and `errorData.detail` is truthy, use it instead (property access on `null`
throws inside the same `try` and is swallowed, as is a parse failure); the
resulting string is the thrown `Error`'s message. -/
def requestErrorMessage (statusText body : String) : String :=
  let dflt := "API Error: " ++ statusText
  match jsonParse body with
  | some (Json.obj fs) =>
    match lookupLast "detail" fs with
    | some v => if jsTruthy v then jsToString v else dflt
    | none => dflt
  | _ => dflt

/-- The assistant/answer text rendered by the catch branches of
`handleAskQuestion` (`pages/PaperDetail.tsx` lines 70-77) and
`handleAskProjectQuestion` (`pages/ProjectDetail.tsx` lines 184-186):
`Error: ${err instanceof Error ? err.message : 'Failed to get answer'}`. -/
def qaErrorDisplay (isErrorInstance : Bool) (message : String) : String :=
  "Error: " ++ (if isErrorInstance then message else "Failed to get answer")

/-- C4 counterexample: the body `{"detail":""}` parses as JSON with a
`detail` field, yet the thrown message is the status-text fallback, not the
server-provided detail (the empty string) — the source checks the detail's
truthiness, not its presence. -/
theorem claim_C4_counterexample :
    jsonParse "\x7b\"detail\":\"\"\x7d" = some (.obj [("detail", .str "")]) ∧
    requestErrorMessage "Not Found" "\x7b\"detail\":\"\"\x7d" = "API Error: Not Found" ∧
    "API Error: Not Found" ≠ "" :=
  ⟨rfl, rfl, by decide⟩

/-- C4 (amended): the request helper throws an `Error` carrying the
server-provided detail when the body parses as a JSON object with a truthy
(in particular, non-empty string) `detail` field, and
`API Error: <status text>` otherwise; the Q&A views display
`Error: <message>`, which is never empty. -/
theorem claim_C4 (statusText body : String) :
    (∀ fs d, jsonParse body = some (.obj fs) →
      lookupLast "detail" fs = some (.str d) → d ≠ "" →
      requestErrorMessage statusText body = d) ∧
    (jsonParse body = none →
      requestErrorMessage statusText body = "API Error: " ++ statusText) ∧
    (∀ fs v, jsonParse body = some (.obj fs) → lookupLast "detail" fs = some v →
      jsTruthy v = false →
      requestErrorMessage statusText body = "API Error: " ++ statusText) ∧
    (∀ b msg, qaErrorDisplay b msg ≠ "") := by
  refine ⟨?_, ?_, ?_, ?_⟩
  · intro fs d hp hd hne
    simp [requestErrorMessage, hp, hd, jsTruthy, jsToString, hne]
  · intro hp
    simp [requestErrorMessage, hp]
  · intro fs v hp hd hf
    simp [requestErrorMessage, hp, hd, hf]
  · intro b msg h
    have h2 := congrArg String.data h
    rw [qaErrorDisplay, String.data_append] at h2
    simp only [List.append_eq_nil] at h2
    exact absurd h2.1 (by decide)

/-- Witness for C4 at a concrete failing response: status text
`"Not Found"`, body `{"detail":"Paper not found"}`. -/
theorem claim_C4_witness :
    requestErrorMessage "Not Found" "\x7b\"detail\":\"Paper not found\"\x7d" =
      "Paper not found" :=
  (claim_C4 "Not Found" "\x7b\"detail\":\"Paper not found\"\x7d").1
    [("detail", .str "Paper not found")] "Paper not found" rfl rfl (by decide)

/-! ## C10: the log-run dialog's config validation -/

/-- The state of the log-run dialog in `pages/ExperimentDetail.tsx` that
`handleCreateRun` reads and writes. -/
structure RunDialogState where
  showRunModal : Bool
  newRunName : String
  newRunConfig : String
  error : String
  creatingRun : Bool
deriving DecidableEq

/-- The payload of a `runsApi.create` request (type `RunCreate`):
`run_name: newRun.name || undefined`, `config` the parsed JSON or
`undefined`. -/
structure RunCreatePayload where
  run_name : Option String
  config : Option Json

/-- Embedding of `handleCreateRun` from `pages/ExperimentDetail.tsx` (lines 108-134):
returns the request issued to `runsApi.create` (if any) together with the
dialog state after the handler (for the issued case, the state after the
request succeeds; the request's own failure path only changes `error`). -/
def handleCreateRun (s : RunDialogState) : Option RunCreatePayload × RunDialogState :=
  let s1 : RunDialogState := { s with creatingRun := true, error := "" }
  let payload : RunCreatePayload → Option RunCreatePayload := some
  if jsTrim s.newRunConfig != "" then
    match jsonParse s.newRunConfig with
    | none =>
      (none, { s1 with error := "Invalid JSON in config field", creatingRun := false })
    | some j =>
      (payload ⟨if s.newRunName == "" then none else some s.newRunName, some j⟩,
       { s1 with showRunModal := false, newRunName := "", newRunConfig := "",
                 creatingRun := false })
  else
    (payload ⟨if s.newRunName == "" then none else some s.newRunName, none⟩,
     { s1 with showRunModal := false, newRunName := "", newRunConfig := "",
               creatingRun := false })

/-- C10 counterexample: a whitespace-only config text is non-empty and does
not parse as JSON, yet `handleCreateRun` issues a run-creation request —
the source tests `newRun.config.trim()`, not the raw text. -/
theorem claim_C10_counterexample :
    (" " : String) ≠ "" ∧ jsonParse " " = none ∧
    ((handleCreateRun ⟨true, "run1", " ", "", false⟩).1).isSome = true :=
  ⟨by decide, rfl, rfl⟩

/-- C10 (amended): a run-creation request is issued exactly when the config
text is blank (empty after trimming) or parses as valid JSON; when the
trimmed config is non-empty and does not parse, no request is issued and
the handler only sets the error message, leaving the run name, the config
text and the open modal unchanged. -/
theorem claim_C10 (s : RunDialogState) :
    ((handleCreateRun s).1.isSome =
      (jsTrim s.newRunConfig == "" || (jsonParse s.newRunConfig).isSome)) ∧
    (jsTrim s.newRunConfig ≠ "" → jsonParse s.newRunConfig = none →
      (handleCreateRun s).1 = none ∧
      (handleCreateRun s).2 =
        { s with error := "Invalid JSON in config field", creatingRun := false }) := by
  constructor
  · by_cases h : jsTrim s.newRunConfig = ""
    · simp [handleCreateRun, h]
    · cases hj : jsonParse s.newRunConfig <;> simp [handleCreateRun, h, hj]
  · intro h1 h2
    simp [handleCreateRun, h1, h2]

/-- Witness for C10 at a concrete invalid config text `"oops"`. -/
theorem claim_C10_witness :
    (handleCreateRun ⟨true, "r", "oops", "", false⟩).1 = none ∧
    (handleCreateRun ⟨true, "r", "oops", "", false⟩).2 =
      ⟨true, "r", "oops", "Invalid JSON in config field", false⟩ :=
  (claim_C10 ⟨true, "r", "oops", "", false⟩).2 (by decide) rfl

/-! ## C3: the shape of the value the ask interface returns -/

/-- Whether a JSON value is a string. -/
def isJsonStr : Json → Bool
  | .str _ => true
  | _ => false

/-- Conformance to the client's declared `QAResponse` type in `types`
(`answer: string; sources?: string[]`), read on a parsed JSON value. -/
def conformsQAResponse (j : Json) : Bool :=
  match j with
  | .obj fs =>
    (match lookupLast "answer" fs with
     | some (.str _) => true
     | _ => false) &&
    (match lookupLast "sources" fs with
     | none => true
     | some (.arr xs) => xs.all isJsonStr
     | some _ => false)
  | _ => false

/-- Modelled from the spec: a citation entry of the query trigger's Answer,
`{document_id, chunk_id, section, page}` (spec section 6); stated for
comparison with the client's `QAResponse` type. -/
def conformsSpecCitation (j : Json) : Bool :=
  match j with
  | .obj fs =>
    (lookupLast "document_id" fs).isSome && (lookupLast "chunk_id" fs).isSome &&
    (lookupLast "section" fs).isSome && (lookupLast "page" fs).isSome
  | _ => false

/-- Modelled from the spec: the Answer shape of the query trigger,
`{answer: text, citations: [...]}` (spec section 6). -/
def conformsSpecAnswer (j : Json) : Bool :=
  match j with
  | .obj fs =>
    (match lookupLast "answer" fs with
     | some (.str _) => true
     | _ => false) &&
    (match lookupLast "citations" fs with
     | some (.arr xs) => xs.all conformsSpecCitation
     | _ => false)
  | _ => false

/-- The value `papersApi.askQuestion` / `projectsApi.askQuestion` resolve
with on an ok response: `request` returns `{}` for an empty body and
`JSON.parse(text)` otherwise, with no validation (`lib/api-service.ts`
lines 65-68). -/
def askQuestionResult (bodyText : String) : Option Json :=
  if bodyText == "" then some (.obj []) else jsonParse bodyText

/-- The assistant text `handleAskQuestion` in `pages/PaperDetail.tsx`
renders: the `answer` property of the response (`response.answer`). -/
def answerFieldShown (j : Json) : Option String :=
  match j with
  | .obj fs =>
    match lookupLast "answer" fs with
    | some (.str a) => some a
    | _ => none
  | _ => none

/-- C3 counterexample: a response body that the client accepts as a
`QAResponse` — `{"answer": ..., "sources": [...]}` — carries no citations
list, and its entries are plain strings without `document_id`, `chunk_id`,
`section`, `page`. -/
theorem claim_C3_counterexample :
    askQuestionResult
        "\x7b\"answer\":\"The dataset is ImageNet.\",\"sources\":[\"chunk 3\"]\x7d" =
      some (.obj [("answer", .str "The dataset is ImageNet."),
                  ("sources", .arr [.str "chunk 3"])]) ∧
    conformsQAResponse
        (.obj [("answer", .str "The dataset is ImageNet."),
               ("sources", .arr [.str "chunk 3"])]) = true ∧
    conformsSpecAnswer
        (.obj [("answer", .str "The dataset is ImageNet."),
               ("sources", .arr [.str "chunk 3"])]) = false :=
  ⟨rfl, rfl, rfl⟩

/-- C3 (amended): the value returned by the ask interface is an object
containing the answer text — which is what the Q&A view displays — together
with an optional `sources` list of plain strings; it carries no
`citations` entries with `document_id`, `chunk_id`, `section`, `page`. -/
theorem claim_C3 (j : Json) (h : conformsQAResponse j = true) :
    ∃ fs a, j = .obj fs ∧ lookupLast "answer" fs = some (.str a) ∧
      answerFieldShown j = some a ∧
      (lookupLast "sources" fs = none ∨
        ∃ xs, lookupLast "sources" fs = some (.arr xs) ∧
          ∀ x ∈ xs, isJsonStr x = true) := by
  cases j with
  | obj fs =>
    refine ⟨fs, ?_⟩
    simp only [conformsQAResponse, Bool.and_eq_true] at h
    obtain ⟨h1, h2⟩ := h
    cases ha : lookupLast "answer" fs with
    | none => rw [ha] at h1; simp at h1
    | some v =>
      cases v with
      | str a =>
        refine ⟨a, rfl, rfl, by simp [answerFieldShown, ha], ?_⟩
        cases hs : lookupLast "sources" fs with
        | none => exact Or.inl rfl
        | some w =>
          rw [hs] at h2
          cases w with
          | arr xs =>
            exact Or.inr ⟨xs, rfl, by simpa [List.all_eq_true] using h2⟩
          | null => simp at h2
          | bool b => simp at h2
          | num m e => simp at h2
          | str st => simp at h2
          | obj o => simp at h2
      | null => rw [ha] at h1; simp at h1
      | bool b => rw [ha] at h1; simp at h1
      | num m e => rw [ha] at h1; simp at h1
      | arr xs => rw [ha] at h1; simp at h1
      | obj o => rw [ha] at h1; simp at h1
  | null => simp [conformsQAResponse] at h
  | bool b => simp [conformsQAResponse] at h
  | num m e => simp [conformsQAResponse] at h
  | str st => simp [conformsQAResponse] at h
  | arr xs => simp [conformsQAResponse] at h

/-- Witness for C3 at a concrete conforming response object. -/
theorem claim_C3_witness :
    ∃ fs a, (Json.obj [("answer", Json.str "42")]) = .obj fs ∧
      lookupLast "answer" fs = some (.str a) ∧
      answerFieldShown (Json.obj [("answer", Json.str "42")]) = some a ∧
      (lookupLast "sources" fs = none ∨
        ∃ xs, lookupLast "sources" fs = some (.arr xs) ∧
          ∀ x ∈ xs, isJsonStr x = true) :=
  claim_C3 (Json.obj [("answer", Json.str "42")]) rfl

/-! ## C9: the Papers page search filter -/

/-- A paper as the Papers page filter consumes it: the nullable `title` and
`abstract` fields of the `Paper` type. -/
structure PaperView where
  title : Option String
  abstract : Option String
deriving DecidableEq

/-- The filter predicate of `filteredPapers` in `pages/Papers.tsx`
(lines 82-85):
`paper.title?.toLowerCase().includes(q.toLowerCase()) || paper.abstract?...`;
optional chaining makes a disjunct `undefined` (falsy) when the field is
null. -/
def paperMatches (searchQuery : String) (p : PaperView) : Bool :=
  (match p.title with
   | some t => jsIncludes (jsToLower t) (jsToLower searchQuery)
   | none => false) ||
  (match p.abstract with
   | some a => jsIncludes (jsToLower a) (jsToLower searchQuery)
   | none => false)

/-- Embedding of `filteredPapers` from `pages/Papers.tsx`. -/
def filteredPapers (searchQuery : String) (papers : List PaperView) : List PaperView :=
  papers.filter (paperMatches searchQuery)

/-- Every string includes the empty string (`"x".includes("")` is true). -/
theorem jsIncludes_empty (s : String) : jsIncludes s "" = true := by
  cases s with
  | mk data =>
    cases data <;> simp [jsIncludes, listHasSubstr, listStartsWith]

/-- C9 counterexample: with the empty search query, a paper whose title and
abstract are both null is dropped by the filter, not retained. -/
theorem claim_C9_counterexample :
    filteredPapers "" [⟨none, none⟩] = [] := rfl

/-- C9 (amended): the filter retains exactly the papers for which the title
or the abstract is non-null and contains the query case-insensitively; with
the empty query this retains exactly the papers with a non-null title or
abstract, and always drops papers whose title and abstract are both null. -/
theorem claim_C9 (q : String) (papers : List PaperView) (p : PaperView) :
    (p ∈ filteredPapers q papers ↔ p ∈ papers ∧ paperMatches q p = true) ∧
    (paperMatches "" p = (p.title.isSome || p.abstract.isSome)) := by
  constructor
  · simp [filteredPapers, List.mem_filter]
  · have he : jsToLower "" = "" := rfl
    cases ht : p.title <;> cases ha : p.abstract <;>
      simp [paperMatches, ht, ha, he, jsIncludes_empty]

/-! ## C6: surfacing the persisted processing error -/

/-- Embedding of `getStatusBadge` from `pages/PaperDetail.tsx` (lines 83-114). -/
def paperDetailStatusBadge (status : String) : BadgeView :=
  if status == "completed" then ⟨"success", "Text Extracted"⟩
  else if status == "processing" then ⟨"info", "Processing"⟩
  else if status == "failed" then ⟨"error", "Failed"⟩
  else ⟨"default", "Pending"⟩

/-- Embedding of `getStatusBadge` from `pages/ProjectDetail.tsx` (lines 230-247); the
switch groups `completed|done` and `processing|running`, and the default
badge shows the raw status as its label. -/
def projectDetailStatusBadge (status : String) : BadgeView :=
  if status == "completed" || status == "done" then ⟨"success", "Completed"⟩
  else if status == "processing" || status == "running" then ⟨"info", "Processing"⟩
  else if status == "failed" then ⟨"error", "Failed"⟩
  else if status == "active" then ⟨"success", "Active"⟩
  else if status == "paused" then ⟨"warning", "Paused"⟩
  else ⟨"default", status⟩

/-- The error text rendered next to the status badge in
`pages/PaperDetail.tsx` (lines 162-167):
`processing_status === 'failed' && paper.processing_error && <span>…</span>`;
the truthiness guard skips the span for an empty string, which renders the
same empty text. -/
def paperDetailErrorText (status : String) (processingError : Option String) : String :=
  if status == "failed" then
    match processingError with
    | some e => if e == "" then "" else e
    | none => ""
  else ""

/-- The error text rendered in the papers list of `pages/ProjectDetail.tsx`
(lines 406-414), same guard as on the paper detail page. -/
def projectDetailErrorText (status : String) (processingError : Option String) : String :=
  if status == "failed" then
    match processingError with
    | some e => if e == "" then "" else e
    | none => ""
  else ""

/-- C6: when a paper's status is `failed` and its persisted processing
error is non-null, both paper views render that error text alongside the
Failed badge (for the empty-string message the skipped span renders the
same empty text). -/
theorem claim_C6 (e : String) :
    paperDetailErrorText "failed" (some e) = e ∧
    projectDetailErrorText "failed" (some e) = e ∧
    paperDetailStatusBadge "failed" = ⟨"error", "Failed"⟩ ∧
    projectDetailStatusBadge "failed" = ⟨"error", "Failed"⟩ := by
  refine ⟨?_, ?_, rfl, rfl⟩ <;>
    · by_cases h : e = "" <;>
        simp [paperDetailErrorText, projectDetailErrorText, h]

/-! ## C8: the `projectsApi` methods the UI invokes -/

/-- The method names defined on the `projectsApi` object exported by
`lib/api-service.ts` (lines 72-98). -/
def projectsApiMethods : List String :=
  ["list", "get", "create", "update", "delete", "askQuestion"]

/-- The `projectsApi` method names invoked by the UI pages: `fetchMembers`,
`fetchInvites`, `handleGenerateInvite`, `handleRevokeInvite`,
`handleRemoveMember` and `fetchData` in `pages/ProjectDetail.tsx`, and the
join effect in `pages/JoinProject.tsx`. -/
def projectsApiMethodsInvoked : List String :=
  ["get", "askQuestion", "listMembers", "listInvites", "createInvite",
   "revokeInvite", "removeMember", "joinByCode"]

/-- C8 is false on the code: `listMembers` (and the other member/invite
methods and `joinByCode`) are invoked by the pages but not defined on
`projectsApi`, so opening the Members tab calls an undefined function. -/
theorem claim_C8 :
    "listMembers" ∉ projectsApiMethods ∧
    ¬ (∀ m ∈ projectsApiMethodsInvoked, m ∈ projectsApiMethods) := by
  constructor
  · decide
  · intro h
    exact absurd (h "listMembers" (by decide)) (by decide)

/-! ## C1 and C2: the ask gate and the Retriever scope invariant

The RAG backend (Pipeline Orchestrator, Retriever) is not among the
frontend sources; its definitions below are modelled from the spec and are
marked as such.  The paper-page gating in C1 is embedded from
`pages/PaperDetail.tsx`. -/

/-- The Q&A input's disabled condition in `pages/PaperDetail.tsx`
(line 248): `paper.processing_status !== 'completed' || asking`. -/
def questionInputDisabled (status : String) (asking : Bool) : Bool :=
  status != "completed" || asking

/-- The send button's disabled condition in `pages/PaperDetail.tsx`
(line 254): `paper.processing_status !== 'completed' || asking ||
!question.trim()`. -/
def sendButtonDisabled (status : String) (asking : Bool) (question : String) : Bool :=
  status != "completed" || asking || jsTrim question == ""

/-- Modelled from the spec: a Document as the backend core tracks it — id,
optional project reference, processing status (spec section 3); the backend
code is not among the sources. -/
structure SpecDoc where
  id : Nat
  project : Option Nat
  status : String
deriving DecidableEq

/-- Modelled from the spec: a committed chunk record — owning document id,
sequence index, section label, page, text, embedding vector
(spec section 3). -/
structure SpecChunk where
  id : Nat
  document_id : Nat
  seq : Nat
  sectionLabel : String
  page : Nat
  text : String
  embedding : List Int
deriving DecidableEq

/-- Modelled from the spec: a query scope — a single document or a project
(spec section 3). -/
inductive SpecScope where
  | document : Nat → SpecScope
  | project : Nat → SpecScope
deriving DecidableEq

/-- Modelled from the spec: whether a chunk's owning document lies in the
requested scope. -/
def chunkInScope (docs : List SpecDoc) (scope : SpecScope) (c : SpecChunk) : Bool :=
  match scope with
  | .document did => c.document_id == did
  | .project pid => docs.any (fun d => d.id == c.document_id && d.project == some pid)

/-- Modelled from the spec: whether a chunk's owning document is
`completed` (only committed chunks of completed documents are queryable). -/
def chunkCompleted (docs : List SpecDoc) (c : SpecChunk) : Bool :=
  docs.any (fun d => d.id == c.document_id && d.status == "completed")

/-- Dot product of integer vectors (the similarity score used for ranking;
a stand-in for cosine similarity, whose ordering is irrelevant to the
scope/status invariant). -/
def dotP : List Int → List Int → Int
  | a :: as, b :: bs => a * b + dotP as bs
  | _, _ => 0

/-- Modelled from the spec: the Retriever's ranking — higher similarity
first, ties broken by lower sequence index (spec section 4.5). -/
def retrieveRank (qv : List Int) (a b : SpecChunk) : Bool :=
  dotP qv b.embedding < dotP qv a.embedding ||
    (dotP qv a.embedding == dotP qv b.embedding && a.seq ≤ b.seq)

/-- Insert into a list sorted by `le` (ranking insertion). -/
def insertRanked (le : α → α → Bool) (x : α) : List α → List α
  | [] => [x]
  | y :: ys => if le x y then x :: y :: ys else y :: insertRanked le x ys

/-- Insertion sort by a ranking relation. -/
def sortRanked (le : α → α → Bool) : List α → List α
  | [] => []
  | x :: xs => insertRanked le x (sortRanked le xs)

/-- Modelled from the spec: the Retriever (spec section 4.5) — keep the
committed chunks of completed in-scope documents, rank by similarity with
ties to the earlier chunk, and return the top `k`. -/
def retrieve (docs : List SpecDoc) (chunks : List SpecChunk) (qv : List Int)
    (scope : SpecScope) (k : Nat) : List SpecChunk :=
  (sortRanked (retrieveRank qv)
    (chunks.filter (fun c => chunkCompleted docs c && chunkInScope docs scope c))).take k

/-- Modelled from the spec: the result of the query entry point — the
user-visible "nothing to search" answer (a surfaced `ScopeEmptyError`), or
an answer grounded in the retrieved chunks; the generation provider's text
is external, so the answered case records the question and the cited
chunks (spec sections 4.6, 4.7, 7). -/
inductive AskResult where
  | nothingToSearch : AskResult
  | answered : String → List SpecChunk → AskResult
deriving DecidableEq

/-- Modelled from the spec: the documents a scope refers to
(spec section 3, Query Scope). -/
def docsInScope (docs : List SpecDoc) (scope : SpecScope) : List SpecDoc :=
  match scope with
  | .document did => docs.filter (fun d => d.id == did)
  | .project pid => docs.filter (fun d => d.project == some pid)

/-- Modelled from the spec: the Orchestrator's query entry point `ask`
(spec section 4.7) — a scope containing only non-completed documents is
rejected with the "nothing to search" result; otherwise it delegates to
the Retriever and the Synthesizer. -/
def ask (docs : List SpecDoc) (chunks : List SpecChunk) (qv : List Int)
    (scope : SpecScope) (question : String) (k : Nat) : AskResult :=
  if ((docsInScope docs scope).filter (fun d => d.status == "completed")).isEmpty then
    .nothingToSearch
  else
    .answered question (retrieve docs chunks qv scope k)

/-- Membership through ranking insertion. -/
theorem mem_insertRanked {le : α → α → Bool} {x a : α} {l : List α}
    (h : a ∈ insertRanked le x l) : a = x ∨ a ∈ l := by
  induction l with
  | nil => simpa [insertRanked] using h
  | cons y ys ih =>
    rw [insertRanked] at h
    by_cases hle : le x y = true
    · rw [if_pos hle] at h
      exact List.mem_cons.mp h
    · rw [if_neg hle] at h
      rcases List.mem_cons.mp h with h | h
      · exact Or.inr (h ▸ List.mem_cons_self _ _)
      · rcases ih h with h2 | h2
        · exact Or.inl h2
        · exact Or.inr (List.mem_cons_of_mem _ h2)

/-- Membership is preserved backwards through the ranking sort. -/
theorem mem_sortRanked {le : α → α → Bool} {a : α} {l : List α}
    (h : a ∈ sortRanked le l) : a ∈ l := by
  induction l with
  | nil => simp [sortRanked] at h
  | cons x xs ih =>
    rw [sortRanked] at h
    rcases mem_insertRanked h with h2 | h2
    · exact h2 ▸ List.mem_cons_self _ _
    · exact List.mem_cons_of_mem _ (ih h2)

/-- C2: every chunk the Retriever returns belongs to a document that is in
the requested scope and whose status is `completed` — no chunk leaks from
outside the scope or from a non-completed document. -/
theorem claim_C2 (docs : List SpecDoc) (chunks : List SpecChunk) (qv : List Int)
    (scope : SpecScope) (k : Nat) (c : SpecChunk)
    (hc : c ∈ retrieve docs chunks qv scope k) :
    (∃ d ∈ docs, d.id = c.document_id ∧ d.status = "completed") ∧
    (∀ did, scope = .document did → c.document_id = did) ∧
    (∀ pid, scope = .project pid →
      ∃ d ∈ docs, d.id = c.document_id ∧ d.project = some pid) := by
  have h1 : c ∈ chunks.filter
      (fun c => chunkCompleted docs c && chunkInScope docs scope c) :=
    mem_sortRanked (List.mem_of_mem_take hc)
  rw [List.mem_filter, Bool.and_eq_true] at h1
  have hcomp := h1.2.1
  have hscope := h1.2.2
  refine ⟨?_, ?_, ?_⟩
  · rw [chunkCompleted, List.any_eq_true] at hcomp
    obtain ⟨d, hd, hdp⟩ := hcomp
    rw [Bool.and_eq_true, beq_iff_eq, beq_iff_eq] at hdp
    exact ⟨d, hd, hdp.1, hdp.2⟩
  · intro did hs
    subst hs
    rw [chunkInScope, beq_iff_eq] at hscope
    exact hscope
  · intro pid hs
    subst hs
    rw [chunkInScope, List.any_eq_true] at hscope
    obtain ⟨d, hd, hdp⟩ := hscope
    rw [Bool.and_eq_true, beq_iff_eq, beq_iff_eq] at hdp
    exact ⟨d, hd, hdp.1, hdp.2⟩

/-- Witness for C2: a concrete store with one completed in-project document
whose chunk the Retriever returns; the returned chunk satisfies both
invariant halves. -/
theorem claim_C2_witness :
    (⟨10, 1, 0, "Methods", 2, "ImageNet was used.", [1, 0]⟩ : SpecChunk) ∈
      retrieve [⟨1, some 7, "completed"⟩]
        [⟨10, 1, 0, "Methods", 2, "ImageNet was used.", [1, 0]⟩] [1, 0]
        (.project 7) 5 ∧
    (∃ d ∈ [(⟨1, some 7, "completed"⟩ : SpecDoc)], d.id = 1 ∧ d.status = "completed") :=
  ⟨by decide,
   ((claim_C2 [⟨1, some 7, "completed"⟩]
      [⟨10, 1, 0, "Methods", 2, "ImageNet was used.", [1, 0]⟩] [1, 0]
      (.project 7) 5 ⟨10, 1, 0, "Methods", 2, "ImageNet was used.", [1, 0]⟩
      (by decide)).1)⟩

/-- C1: on a single-document scope a question can be submitted only when
the paper's status is `completed` — the input and the send button are
disabled for every other status — and a query against a project scope all
of whose member documents are still `processing` yields the "nothing to
search" result, not an answered result. -/
theorem claim_C1 (status : String) (asking : Bool) (question : String)
    (docs : List SpecDoc) (chunks : List SpecChunk) (qv : List Int)
    (pid : Nat) (k : Nat) :
    (status ≠ "completed" →
      questionInputDisabled status asking = true ∧
      sendButtonDisabled status asking question = true) ∧
    ((∀ d ∈ docsInScope docs (.project pid), d.status = "processing") →
      ask docs chunks qv (.project pid) question k = .nothingToSearch) := by
  constructor
  · intro h
    constructor
    · simp [questionInputDisabled, h]
    · simp [sendButtonDisabled, h]
  · intro h
    rw [ask, if_pos]
    rw [List.isEmpty_iff, List.filter_eq_nil_iff]
    intro d hd
    rw [h d hd]
    decide

/-- Witness for C1 at status `"processing"` and a project whose two
documents are both still processing. -/
theorem claim_C1_witness :
    (questionInputDisabled "processing" false = true ∧
     sendButtonDisabled "processing" false "What dataset was used?" = true) ∧
    ask [⟨1, some 7, "processing"⟩, ⟨2, some 7, "processing"⟩] [] [1]
      (.project 7) "What dataset was used?" 5 = .nothingToSearch :=
  ⟨(claim_C1 "processing" false "What dataset was used?"
      [⟨1, some 7, "processing"⟩, ⟨2, some 7, "processing"⟩] [] [1] 7 5).1
      (by decide),
   (claim_C1 "processing" false "What dataset was used?"
      [⟨1, some 7, "processing"⟩, ⟨2, some 7, "processing"⟩] [] [1] 7 5).2
      (by decide)⟩

/-! ## C7: the ask URLs percent-encode the question, and decoding round-trips -/

/-- The characters `encodeURIComponent` leaves literal
(ECMAScript: letters, digits, and `- _ . ! ~ * ' ( )`). -/
def uriUnreserved (c : Char) : Bool :=
  ('A' ≤ c && c ≤ 'Z') || ('a' ≤ c && c ≤ 'z') || ('0' ≤ c && c ≤ '9') ||
  c == '-' || c == '_' || c == '.' || c == '!' || c == '~' || c == '*' ||
  c == Char.ofNat 39 || c == '(' || c == ')'

/-- UTF-8 encoding of a Unicode code point (RFC 3629). -/
def utf8Bytes (n : Nat) : List Nat :=
  if n < 0x80 then [n]
  else if n < 0x800 then [0xC0 + n / 0x40, 0x80 + n % 0x40]
  else if n < 0x10000 then
    [0xE0 + n / 0x1000, 0x80 + (n / 0x40) % 0x40, 0x80 + n % 0x40]
  else
    [0xF0 + n / 0x40000, 0x80 + (n / 0x1000) % 0x40,
     0x80 + (n / 0x40) % 0x40, 0x80 + n % 0x40]

/-- Uppercase hexadecimal digit for a value below 16
(`encodeURIComponent` emits uppercase hex). -/
def hexDigitChar (n : Nat) : Char :=
  if n < 10 then Char.ofNat (48 + n) else Char.ofNat (55 + n)

/-- Percent-encoding of one byte: `%` followed by two uppercase hex
digits. -/
def pctEncodeByte (b : Nat) : List Char :=
  ['%', hexDigitChar (b / 16), hexDigitChar (b % 16)]

/-- Model of `encodeURIComponent` on a character list: unreserved
characters stay literal, every other character becomes the
percent-encoding of its UTF-8 bytes. -/
def encodeURIComponentList : List Char → List Char
  | [] => []
  | c :: cs =>
    (if uriUnreserved c then [c]
     else ((utf8Bytes c.toNat).map pctEncodeByte).flatten) ++
    encodeURIComponentList cs

/-- Model of `encodeURIComponent`. -/
def encodeURIComponentM (s : String) : String :=
  ⟨encodeURIComponentList s.data⟩

/-- The byte sequence a percent-encoded string denotes: `%HH` contributes
that byte, a literal character contributes its UTF-8 bytes; `none` on a
malformed escape. -/
def pctBytes : List Char → Option (List Nat)
  | [] => some []
  | c :: rest =>
    if c == '%' then
      match rest with
      | x :: y :: rest2 =>
        match hexDigitVal x, hexDigitVal y with
        | some hx, some hy => (pctBytes rest2).map (fun bs => (hx * 16 + hy) :: bs)
        | _, _ => none
      | _ => none
    else (pctBytes rest).map (fun bs => utf8Bytes c.toNat ++ bs)

/-- UTF-8 decoding of a byte list into code points (fuel-indexed structural
recursion; one unit of fuel per decoded code point). -/
def utf8Decode : Nat → List Nat → Option (List Nat)
  | _, [] => some []
  | 0, _ :: _ => none
  | fuel + 1, b :: rest =>
    if b < 0x80 then (utf8Decode fuel rest).map (b :: ·)
    else if 0xC2 ≤ b ∧ b < 0xE0 then
      match rest with
      | b1 :: rest1 =>
        if 0x80 ≤ b1 ∧ b1 < 0xC0 then
          (utf8Decode fuel rest1).map (((b - 0xC0) * 0x40 + (b1 - 0x80)) :: ·)
        else none
      | [] => none
    else if 0xE0 ≤ b ∧ b < 0xF0 then
      match rest with
      | b1 :: b2 :: rest2 =>
        if 0x80 ≤ b1 ∧ b1 < 0xC0 ∧ 0x80 ≤ b2 ∧ b2 < 0xC0 then
          (utf8Decode fuel rest2).map
            (((b - 0xE0) * 0x1000 + (b1 - 0x80) * 0x40 + (b2 - 0x80)) :: ·)
        else none
      | _ => none
    else if 0xF0 ≤ b ∧ b < 0xF5 then
      match rest with
      | b1 :: b2 :: b3 :: rest3 =>
        if 0x80 ≤ b1 ∧ b1 < 0xC0 ∧ 0x80 ≤ b2 ∧ b2 < 0xC0 ∧
            0x80 ≤ b3 ∧ b3 < 0xC0 then
          (utf8Decode fuel rest3).map
            (((b - 0xF0) * 0x40000 + (b1 - 0x80) * 0x1000 +
              (b2 - 0x80) * 0x40 + (b3 - 0x80)) :: ·)
        else none
      | _ => none
    else none

/-- Model of `decodeURIComponent`: percent-decode to bytes, then UTF-8
decode to code points (`none` where `decodeURIComponent` throws a
`URIError`). -/
def decodeURIComponentM (s : String) : Option String :=
  match pctBytes s.data with
  | none => none
  | some bs =>
    match utf8Decode (bs.length + 1) bs with
    | none => none
    | some ns => some ⟨ns.map Char.ofNat⟩

/-- The request URL built by `papersApi.askQuestion` in `lib/api-service.ts`
(lines 135-138). -/
def papersAskURL (id : Nat) (question : String) : String :=
  "/papers/" ++ toString id ++ "/qa?question=" ++ encodeURIComponentM question

/-- The request URL built by `projectsApi.askQuestion` in
`lib/api-service.ts` (lines 94-97). -/
def projectsAskURL (id : Nat) (question : String) : String :=
  "/projects/" ++ toString id ++ "/qa?question=" ++ encodeURIComponentM question

/-- The UTF-8 byte sequence of a character list. -/
def utf8Str (l : List Char) : List Nat :=
  (l.map (fun c => utf8Bytes c.toNat)).flatten

theorem uriUnreserved_ne_pct {c : Char} (h : uriUnreserved c = true) : c ≠ '%' := by
  intro hc
  subst hc
  exact absurd h (by decide)

theorem hexDigitVal_hexDigitChar (n : Nat) (h : n < 16) :
    hexDigitVal (hexDigitChar n) = some n := by
  interval_cases n <;> decide

theorem utf8Bytes_lt_256 {n : Nat} (hn : n < 0x110000) :
    ∀ b ∈ utf8Bytes n, b < 256 := by
  intro b hb
  rw [utf8Bytes] at hb
  by_cases h1 : n < 0x80
  · rw [if_pos h1] at hb
    simp at hb
    omega
  · rw [if_neg h1] at hb
    by_cases h2 : n < 0x800
    · rw [if_pos h2] at hb
      simp at hb
      rcases hb with hb | hb <;> omega
    · rw [if_neg h2] at hb
      by_cases h3 : n < 0x10000
      · rw [if_pos h3] at hb
        simp at hb
        rcases hb with hb | hb | hb <;> omega
      · rw [if_neg h3] at hb
        simp at hb
        rcases hb with hb | hb | hb | hb <;> omega

theorem pctBytes_cons {c : Char} (rest : List Char) (hc : c ≠ '%') :
    pctBytes (c :: rest) = (pctBytes rest).map (fun bs => utf8Bytes c.toNat ++ bs) := by
  have hbeq : (c == '%') = false := by simpa using hc
  rw [pctBytes.eq_def]
  simp [hbeq]

theorem pctBytes_pctEncodeByte {b : Nat} (hb : b < 256) (tail : List Char) :
    pctBytes (pctEncodeByte b ++ tail) = (pctBytes tail).map (fun bs => b :: bs) := by
  have h1 : hexDigitVal (hexDigitChar (b / 16)) = some (b / 16) :=
    hexDigitVal_hexDigitChar _ (by omega)
  have h2 : hexDigitVal (hexDigitChar (b % 16)) = some (b % 16) :=
    hexDigitVal_hexDigitChar _ (by omega)
  show (match hexDigitVal (hexDigitChar (b / 16)), hexDigitVal (hexDigitChar (b % 16)) with
        | some hx, some hy => (pctBytes tail).map (fun bs => (hx * 16 + hy) :: bs)
        | _, _ => none) = (pctBytes tail).map (fun bs => b :: bs)
  rw [h1, h2]
  show (pctBytes tail).map (fun bs => (b / 16 * 16 + b % 16) :: bs) = _
  simp only [show b / 16 * 16 + b % 16 = b by omega]

theorem pctBytes_pctList {bs : List Nat} (hb : ∀ b ∈ bs, b < 256) (tail : List Char) :
    pctBytes ((bs.map pctEncodeByte).flatten ++ tail) =
      (pctBytes tail).map (fun l => bs ++ l) := by
  induction bs with
  | nil =>
    simp only [List.map_nil, List.flatten_nil, List.nil_append]
    cases pctBytes tail <;> simp
  | cons b bs ih =>
    simp only [List.map_cons, List.flatten_cons, List.append_assoc]
    rw [pctBytes_pctEncodeByte (hb b (List.mem_cons_self _ _)) _]
    rw [ih (fun x hx => hb x (List.mem_cons_of_mem _ hx))]
    cases pctBytes tail <;> simp

/-- A valid character's code point is below 0x110000. -/
theorem char_toNat_lt (c : Char) : c.toNat < 0x110000 := by
  have hv : c.toNat < 0xd800 ∨ (0xdfff < c.toNat ∧ c.toNat < 0x110000) := c.valid
  omega

theorem pctBytes_encode (l : List Char) :
    pctBytes (encodeURIComponentList l) = some (utf8Str l) := by
  induction l with
  | nil => rfl
  | cons c cs ih =>
    rw [encodeURIComponentList]
    by_cases h : uriUnreserved c = true
    · rw [if_pos h, List.singleton_append]
      rw [pctBytes_cons _ (uriUnreserved_ne_pct h), ih]
      simp [utf8Str]
    · rw [if_neg h]
      rw [pctBytes_pctList (utf8Bytes_lt_256 (char_toNat_lt c)) _, ih]
      simp [utf8Str]

theorem utf8Decode_char (c : Char) (fuel : Nat) (tail : List Nat) :
    utf8Decode (fuel + 1) (utf8Bytes c.toNat ++ tail) =
      (utf8Decode fuel tail).map (fun ns => c.toNat :: ns) := by
  have hv : c.toNat < 0xd800 ∨ (0xdfff < c.toNat ∧ c.toNat < 0x110000) := c.valid
  have hlt := char_toNat_lt c
  by_cases h1 : c.toNat < 0x80
  · simp [utf8Bytes, utf8Decode, h1]
  · by_cases h2 : c.toNat < 0x800
    · have hb0a : ¬ (0xC0 + c.toNat / 0x40 < 0x80) := by omega
      have hb0b : 0xC2 ≤ 0xC0 + c.toNat / 0x40 ∧ 0xC0 + c.toNat / 0x40 < 0xE0 := by omega
      have hb1 : 0x80 ≤ 0x80 + c.toNat % 0x40 ∧ 0x80 + c.toNat % 0x40 < 0xC0 := by omega
      have hval : c.toNat / 0x40 * 0x40 + c.toNat % 0x40 = c.toNat := by omega
      simp [utf8Bytes, utf8Decode, h1, h2, hb0a, hb0b, hb1, hval]
    · by_cases h3 : c.toNat < 0x10000
      · have hb0a : ¬ (0xE0 + c.toNat / 0x1000 < 0x80) := by omega
        have hb0b : ¬ (0xC2 ≤ 0xE0 + c.toNat / 0x1000 ∧ 0xE0 + c.toNat / 0x1000 < 0xE0) := by
          omega
        have hb0c : 0xE0 ≤ 0xE0 + c.toNat / 0x1000 ∧ 0xE0 + c.toNat / 0x1000 < 0xF0 := by
          omega
        have hb1 : 0x80 ≤ 0x80 + c.toNat / 0x40 % 0x40 ∧
            0x80 + c.toNat / 0x40 % 0x40 < 0xC0 ∧
            0x80 ≤ 0x80 + c.toNat % 0x40 ∧ 0x80 + c.toNat % 0x40 < 0xC0 := by omega
        have hval : c.toNat / 0x1000 * 0x1000 + c.toNat / 0x40 % 0x40 * 0x40 +
            c.toNat % 0x40 = c.toNat := by omega
        simp [utf8Bytes, utf8Decode, h1, h2, h3, hb0a, hb0b, hb0c, hb1, hval]
      · have hb0a : ¬ (0xF0 + c.toNat / 0x40000 < 0x80) := by omega
        have hb0b : ¬ (0xC2 ≤ 0xF0 + c.toNat / 0x40000 ∧
            0xF0 + c.toNat / 0x40000 < 0xE0) := by omega
        have hb0c : ¬ (0xE0 ≤ 0xF0 + c.toNat / 0x40000 ∧
            0xF0 + c.toNat / 0x40000 < 0xF0) := by omega
        have hb0d : 0xF0 ≤ 0xF0 + c.toNat / 0x40000 ∧ 0xF0 + c.toNat / 0x40000 < 0xF5 := by
          omega
        have hb1 : 0x80 ≤ 0x80 + c.toNat / 0x1000 % 0x40 ∧
            0x80 + c.toNat / 0x1000 % 0x40 < 0xC0 ∧
            0x80 ≤ 0x80 + c.toNat / 0x40 % 0x40 ∧
            0x80 + c.toNat / 0x40 % 0x40 < 0xC0 ∧
            0x80 ≤ 0x80 + c.toNat % 0x40 ∧ 0x80 + c.toNat % 0x40 < 0xC0 := by omega
        have hval : c.toNat / 0x40000 * 0x40000 + c.toNat / 0x1000 % 0x40 * 0x1000 +
            c.toNat / 0x40 % 0x40 * 0x40 + c.toNat % 0x40 = c.toNat := by omega
        simp [utf8Bytes, utf8Decode, h1, h2, h3, hb0a, hb0b, hb0c, hb0d, hb1, hval]

theorem utf8Decode_utf8Str (l : List Char) (fuel : Nat) (hf : l.length < fuel) :
    utf8Decode fuel (utf8Str l) = some (l.map (fun c => c.toNat)) := by
  induction l generalizing fuel with
  | nil => cases fuel <;> simp [utf8Str, utf8Decode]
  | cons c cs ih =>
    cases fuel with
    | zero => omega
    | succ f =>
      rw [show utf8Str (c :: cs) = utf8Bytes c.toNat ++ utf8Str cs by simp [utf8Str]]
      rw [utf8Decode_char c f (utf8Str cs)]
      rw [ih f (by simp at hf; omega)]
      simp

theorem one_le_utf8Bytes_length (n : Nat) : 1 ≤ (utf8Bytes n).length := by
  rw [utf8Bytes]
  split_ifs <;> simp

theorem length_le_utf8Str (l : List Char) : l.length ≤ (utf8Str l).length := by
  induction l with
  | nil => simp [utf8Str]
  | cons c cs ih =>
    have h1 : utf8Str (c :: cs) = utf8Bytes c.toNat ++ utf8Str cs := by simp [utf8Str]
    rw [h1, List.length_append, List.length_cons]
    have := one_le_utf8Bytes_length c.toNat
    omega

/-- C7: both ask URLs embed the question via `encodeURIComponent`, and
percent-decoding the embedded query parameter returns the original
question exactly (for every question string, non-ASCII included). -/
theorem claim_C7 (pid : Nat) (q : String) :
    papersAskURL pid q =
      "/papers/" ++ toString pid ++ "/qa?question=" ++ encodeURIComponentM q ∧
    projectsAskURL pid q =
      "/projects/" ++ toString pid ++ "/qa?question=" ++ encodeURIComponentM q ∧
    decodeURIComponentM (encodeURIComponentM q) = some q := by
  refine ⟨rfl, rfl, ?_⟩
  obtain ⟨data⟩ := q
  show (match pctBytes (encodeURIComponentList data) with
        | none => none
        | some bs =>
          match utf8Decode (bs.length + 1) bs with
          | none => none
          | some ns => some (⟨ns.map Char.ofNat⟩ : String)) = some ⟨data⟩
  rw [pctBytes_encode data]
  show (match utf8Decode ((utf8Str data).length + 1) (utf8Str data) with
        | none => none
        | some ns => some (⟨ns.map Char.ofNat⟩ : String)) = some ⟨data⟩
  rw [utf8Decode_utf8Str data _ (by have := length_le_utf8Str data; omega)]
  show some (⟨(data.map (fun c => c.toNat)).map Char.ofNat⟩ : String) = some ⟨data⟩
  rw [List.map_map]
  rw [show (Char.ofNat ∘ fun c => c.toNat) = id from funext fun c => Char.ofNat_toNat c]
  rw [List.map_id]

end LabAssistant
